import Mathlib

/-!
Verification of the `WebSocketClient` of libnullnexus
(`src/include/libnullnexus/websocketclient.hpp`).

The client is a concurrency-safe state machine: a background worker thread
runs the io loop, callers invoke `start` / `stop` / `sendMessage`, timers
drive retries, and every mutation of shared state happens under one
recursive mutex.  Because every operation of the source holds that single
lock while it touches shared state, a run of the client is modelled as a
sequence of atomic events applied to an explicit `ClientState`.  Network
nondeterminism (did resolve/connect/handshake succeed, did a write succeed)
is supplied by oracles carried on the events.

Ghost fields (`now`, `written`, `delivered`, `attempts`,
`pendingReconnects`) instrument the model: they record time, the messages
written from the queue, the payloads handed to the callback, the number of
`doConnectionAttempt` invocations, and the detached `doReconnect` threads
that have been spawned (line 70-71 of the source) but not yet scheduled.
-/

namespace WSClient

/-- Outcome of one `doConnectionAttempt` (lines 104-136 of the source):
the resolve, connect or handshake step may throw, or the whole attempt
succeeds.  `ws.emplace(ioc)` happens after resolve and before connect, so a
`connectFail`/`handshakeFail` leaves a fresh, non-open handle behind. -/
inductive ConnOutcome where
  | resolveFail
  | connectFail
  | handshakeFail
  | success
deriving DecidableEq, Repr

/-- The shared state of one `WebSocketClient` object, together with the
ghost instrumentation fields described in the file header.
`ws = none` models a disengaged `std::optional`, `ws = some b` an engaged
handle whose `is_open()` is `b`.  `worker` counts live worker threads
(the source stores at most one in `std::optional<std::thread>`).
A timer is armed iff its deadline field is `some d`. -/
structure ClientState where
  shouldBeActive : Bool
  ws : Option Bool
  worker : Nat
  startDelayDeadline : Option Nat
  msgQueueDeadline : Option Nat
  messages : List String
  readArmed : Bool
  pendingReconnects : Nat
  now : Nat
  written : List String
  delivered : List String
  attempts : Nat
deriving DecidableEq, Repr

/-- The state of a freshly constructed client. -/
def initState : ClientState :=
  { shouldBeActive := false
    ws := none
    worker := 0
    startDelayDeadline := none
    msgQueueDeadline := none
    messages := []
    readArmed := false
    pendingReconnects := 0
    now := 0
    written := []
    delivered := []
    attempts := 0 }

/-- `ws && ws->is_open()`: the handle exists and is open. -/
def wsOpen (s : ClientState) : Bool :=
  s.ws.getD false

/-- The `while (messages.size())` loop of `trySendMessageQueue`
(lines 210-224): write the head message; on success pop it and continue, on
the first failure stop.  The write oracle `wo` says whether the `i`-th write
of this drain invocation succeeds.  Returns
`(written messages, remaining queue, did a write fail)`. -/
def drainGo (wo : Nat → Bool) : Nat → List String → List String × List String × Bool
  | _, [] => ([], [], false)
  | i, m :: rest =>
    if wo i then
      let p := drainGo wo (i + 1) rest
      (m :: p.1, p.2.1, p.2.2)
    else
      ([], m :: rest, true)

/-- `trySendMessageQueue` (lines 204-225): under the lock, return unless
`shouldBeActive && ws && ws->is_open()`; otherwise run the drain loop, and
on a write failure cancel and re-arm the single-shot one-second
`message_queue_timer`. -/
def trySendMessageQueue (wo : Nat → Bool) (s : ClientState) : ClientState :=
  if !s.shouldBeActive || !wsOpen s then s
  else
    let d := drainGo wo 0 s.messages
    let s1 := { s with messages := d.2.1, written := s.written ++ d.1 }
    if d.2.2 then { s1 with msgQueueDeadline := some (s1.now + 1) } else s1

/-- `doConnectionAttempt` (lines 104-136): resolve, then `ws.emplace(ioc)`,
then connect, then handshake; any step may throw, and the `catch (...)`
returns `false`.  On success the handle is open, `startAsyncRead()` arms
the read and `trySendMessageQueue()` drains the queue. -/
def doConnectionAttempt (co : ConnOutcome) (wo : Nat → Bool) (s : ClientState) :
    Bool × ClientState :=
  let s1 := { s with attempts := s.attempts + 1 }
  match co with
  | .resolveFail => (false, s1)
  | .connectFail => (false, { s1 with ws := some false })
  | .handshakeFail => (false, { s1 with ws := some false })
  | .success =>
    (true, trySendMessageQueue wo { s1 with ws := some true, readArmed := true })

/-- `scheduleDelayedStart` (lines 139-144): cancel the start-delay timer and
re-arm it ten seconds from now. -/
def scheduleDelayedStart (s : ClientState) : ClientState :=
  { s with startDelayDeadline := some (s.now + 10) }

/-- `handler_startDelayTimer` (lines 147-156) invoked with `ec = success`
(a cancelled wait is modelled by the timer simply being unarmed): re-check
`shouldBeActive`, attempt a connection, and on failure re-arm. -/
def handler_startDelayTimer (co : ConnOutcome) (wo : Nat → Bool) (s : ClientState) :
    ClientState :=
  if !s.shouldBeActive then s
  else
    let p := doConnectionAttempt co wo s
    if p.1 then p.2 else scheduleDelayedStart p.2

/-- `internalStart` (lines 159-172): spawn the worker thread if absent, then
attempt a connection, scheduling a delayed retry on failure. -/
def internalStart (co : ConnOutcome) (wo : Nat → Bool) (s : ClientState) : ClientState :=
  let s1 := if s.worker = 0 then { s with worker := 1 } else s
  let p := doConnectionAttempt co wo s1
  if p.1 then p.2 else scheduleDelayedStart p.2

/-- `internalStop` (lines 175-194): cancel the start-delay timer, async-close
an open handle, cancel the message-queue timer, and join and clear the worker
thread.  Joining drains the io loop, so the close completion and the aborted
pending read have run by the time it returns: the model clears `readArmed`
together with the close.  The message queue and the detached reconnect
threads are untouched. -/
def internalStop (s : ClientState) : ClientState :=
  let s1 := { s with startDelayDeadline := none }
  let s2 := if wsOpen s1 then { s1 with ws := some false, readArmed := false } else s1
  let s3 := { s2 with msgQueueDeadline := none }
  if s3.worker ≠ 0 then { s3 with worker := 0 } else s3

/-- `doReconnect` (lines 56-63), the body of the detached reconnect thread:
under the lock, re-check `shouldBeActive`, then stop and start. -/
def doReconnect (co : ConnOutcome) (wo : Nat → Bool) (s : ClientState) : ClientState :=
  if !s.shouldBeActive then s
  else internalStart co wo (internalStop s)

/-- `start` (lines 229-236): no-op when already active, else set
`shouldBeActive` and run `internalStart`. -/
def start (co : ConnOutcome) (wo : Nat → Bool) (s : ClientState) : ClientState :=
  if s.shouldBeActive then s
  else internalStart co wo { s with shouldBeActive := true }

/-- `stop` (lines 237-245): no-op when already inactive, else clear
`shouldBeActive` and run `internalStop`. -/
def stop (s : ClientState) : ClientState :=
  if !s.shouldBeActive then s
  else internalStop { s with shouldBeActive := false }

/-- `handle_timerMessageQueue` (lines 197-202) invoked with `ec = success`:
re-invoke the drain. -/
def handle_timerMessageQueue (wo : Nat → Bool) (s : ClientState) : ClientState :=
  trySendMessageQueue wo s

/-- `sendMessage` (lines 247-271).  With `sendIfOffline` the payload is
pushed onto the queue and the drain is attempted, and the call returns
`true`.  Without it, a single synchronous write is attempted on the current
handle: `false` on a missing handle or a throwing write (a write on a
non-open handle throws; otherwise the oracle decides), `true` otherwise.
The direct path never touches the queue. -/
def sendMessage (msg : String) (sendIfOffline : Bool) (wo : Nat → Bool)
    (s : ClientState) : Bool × ClientState :=
  if sendIfOffline then
    (true, trySendMessageQueue wo { s with messages := s.messages ++ [msg] })
  else
    match s.ws with
    | none => (false, s)
    | some b => if b && wo 0 then (true, s) else (false, s)

/-- One atomic event of a run: a public API call, a timer firing, a read
completing, one pending detached reconnect thread getting scheduled, or one
unit of time passing. -/
inductive Event where
  | start (co : ConnOutcome) (wo : Nat → Bool)
  | stop
  | send (msg : String) (sendIfOffline : Bool) (wo : Nat → Bool)
  | fireStartTimer (co : ConnOutcome) (wo : Nat → Bool)
  | fireMsgTimer (wo : Nat → Bool)
  | readOk (payload : String)
  | readErr (aborted : Bool)
  | runReconnect (co : ConnOutcome) (wo : Nat → Bool)
  | tick

/-- The transition function.  A timer fires only while armed and expired
(a cancelled timer delivers `operation_aborted`, which its handler ignores);
a read completes only while armed, successfully only on an open handle
(`handler_onread` then delivers the payload and re-arms the read); a
non-aborted read error spawns a detached `doReconnect` thread; such a
pending thread runs at an arbitrary later point. -/
def step (s : ClientState) : Event → ClientState
  | .start co wo => start co wo s
  | .stop => stop s
  | .send msg q wo => (sendMessage msg q wo s).2
  | .fireStartTimer co wo =>
    match s.startDelayDeadline with
    | some d =>
      if d ≤ s.now then handler_startDelayTimer co wo { s with startDelayDeadline := none }
      else s
    | none => s
  | .fireMsgTimer wo =>
    match s.msgQueueDeadline with
    | some d =>
      if d ≤ s.now then handle_timerMessageQueue wo { s with msgQueueDeadline := none }
      else s
    | none => s
  | .readOk payload =>
    if s.readArmed && wsOpen s then { s with delivered := s.delivered ++ [payload] }
    else s
  | .readErr aborted =>
    if s.readArmed then
      if aborted then { s with readArmed := false }
      else { s with readArmed := false, pendingReconnects := s.pendingReconnects + 1 }
    else s
  | .runReconnect co wo =>
    if s.pendingReconnects ≠ 0 then
      doReconnect co wo { s with pendingReconnects := s.pendingReconnects - 1 }
    else s
  | .tick => { s with now := s.now + 1 }

/-- Run a sequence of events from the freshly constructed client. -/
def runEvents (evs : List Event) : ClientState :=
  evs.foldl step initState

/-- The payload a single event appends to the queue: `sendMessage(m, true)`
appends `m`, every other event appends nothing. -/
def sentOf : Event → List String
  | .send m true _ => [m]
  | _ => []

/-- All payloads the events of a run enqueue, in order. -/
def queuedMsgs : List Event → List String
  | [] => []
  | e :: rest => sentOf e ++ queuedMsgs rest

/-- The inductive invariant tying together activity flag, worker thread,
timers, handle and read state:
inactive clients hold no worker, no armed timer and no open handle;
active clients hold exactly one worker; an active client has either an open
handle and no armed start-delay timer, or no open handle and an armed
start-delay timer; and an armed read implies an open handle. -/
def Inv (s : ClientState) : Prop :=
  (s.shouldBeActive = false →
    s.worker = 0 ∧ s.startDelayDeadline = none ∧ s.msgQueueDeadline = none ∧
      wsOpen s = false) ∧
  (s.shouldBeActive = true → s.worker = 1) ∧
  (s.shouldBeActive = true →
    (wsOpen s = true ∧ s.startDelayDeadline = none) ∨
    (wsOpen s = false ∧ s.startDelayDeadline ≠ none)) ∧
  (s.readArmed = true → wsOpen s = true)

/-- Recognizer for the `stop` event. -/
def isStop : Event → Bool
  | .stop => true
  | _ => false

/-- Recognizer for the `tick` event. -/
def isTick : Event → Bool
  | .tick => true
  | _ => false

/-- Does the event list contain a `stop` call? -/
def hasStop (evs : List Event) : Bool :=
  evs.any isStop

/-- How many time units pass during the event list. -/
def countTicks : List Event → Nat
  | [] => 0
  | .tick :: rest => countTicks rest + 1
  | _ :: rest => countTicks rest

/-- A state waiting out the start-delay timer armed for deadline `d`:
active, the timer armed, no leaked detached reconnect pending, no read
outstanding and no open handle. -/
def Quiet (d : Nat) (s : ClientState) : Prop :=
  s.shouldBeActive = true ∧ s.startDelayDeadline = some d ∧
  s.pendingReconnects = 0 ∧ s.readArmed = false ∧ wsOpen s = false

/-! ### The read-completion handler, embedded on its own

`handler_onread` (lines 82-95) together with `handle_handler_error`
(lines 65-72) is a self-contained piece of the source: it sees the error
code of the completed read, the read buffer, the callback sink and the
ability to re-arm the read or spawn a detached reconnect thread. -/

/-- The error code a read completion can carry: success, the
`operation_aborted` produced by cancellation/close, or any other error. -/
inductive EC where
  | ok
  | operationAborted
  | otherErr
deriving DecidableEq, Repr

/-- The state `handler_onread` touches: the read buffer `buf`, the payloads
handed to the callback sink, whether an async read is outstanding, and how
many detached reconnect threads have been spawned. -/
structure ReadState where
  buf : String
  delivered : List String
  readArmed : Bool
  pendingReconnects : Nat
deriving DecidableEq, Repr

/-- `handle_handler_error` (lines 65-72): ignore `operation_aborted`
silently; for any other error spawn a detached `doReconnect` thread. -/
def handle_handler_error (ec : EC) (s : ReadState) : ReadState :=
  if ec = EC.operationAborted then s
  else { s with pendingReconnects := s.pendingReconnects + 1 }

/-- `handler_onread` (lines 82-95), invoked when the single outstanding
read completes (so it is no longer armed): on an error, defer to
`handle_handler_error` and return; otherwise hand the buffer contents to
the callback, clear the buffer, and re-arm the read via
`startAsyncRead()`. -/
def handler_onread (ec : EC) (s : ReadState) : ReadState :=
  let s1 := { s with readArmed := false }
  if ec ≠ EC.ok then handle_handler_error ec s1
  else
    let s2 := { s1 with delivered := s1.delivered ++ [s1.buf] }
    let s3 := { s2 with buf := "" }
    { s3 with readArmed := true }

/-! ### An event trace of one drain invocation

For the claim about where `trySendMessageQueue` checks connection liveness,
the drain is embedded once more, recording its observable actions in
source order: the single guard evaluation on entry (line 207), then one
write attempt per loop iteration (line 214). -/

/-- One observable action of a drain invocation: evaluating the liveness
guard (with its outcome), or attempting a write of one message (with the
write's outcome). -/
inductive DrainEv where
  | check (live : Bool)
  | write (msg : String) (ok : Bool)
deriving DecidableEq, Repr

/-- Is the action a write attempt? -/
def isWrite : DrainEv → Bool
  | .write _ _ => true
  | _ => false

/-- The liveness guard of line 207, as a single Bool:
`shouldBeActive && ws && ws->is_open()`. -/
def liveGuard (s : ClientState) : Bool :=
  s.shouldBeActive && wsOpen s

/-- Write attempts of the `while` loop in source order: each iteration
attempts the head message; a success continues with the rest, the first
failure ends the loop. -/
def drainTraceGo (wo : Nat → Bool) : Nat → List String → List DrainEv
  | _, [] => []
  | i, m :: rest =>
    if wo i then DrainEv.write m true :: drainTraceGo wo (i + 1) rest
    else [DrainEv.write m false]

/-- The action trace of one `trySendMessageQueue` invocation: the guard is
evaluated once on entry and the loop runs only when it passed. -/
def trySendTrace (wo : Nat → Bool) (s : ClientState) : List DrainEv :=
  DrainEv.check (liveGuard s) ::
    (if liveGuard s then drainTraceGo wo 0 s.messages else [])

/-- Does a check action immediately precede every write action?  The flag
carries whether the previous action was a check. -/
def writesChecked : Bool → List DrainEv → Bool
  | _, [] => true
  | _, .check _ :: rest => writesChecked true rest
  | prevCheck, .write _ _ :: rest => prevCheck && writesChecked false rest

/-- Liveness is checked immediately before every individual write. -/
def everyWriteChecked (t : List DrainEv) : Bool :=
  writesChecked false t

/-- A concrete state to exercise the drain: active, open handle, one
worker, three queued messages. -/
def sampleDrainState : ClientState :=
  { initState with
    shouldBeActive := true
    ws := some true
    worker := 1
    messages := ["a", "b", "c"] }

/-- A concrete state to exercise the drain trace: active, open handle, one
worker, two queued messages. -/
def sampleTraceState : ClientState :=
  { initState with
    shouldBeActive := true
    ws := some true
    worker := 1
    messages := ["x", "y"] }

/-- A concrete run exhibiting the leaked detached reconnect thread:
connect, suffer a read error (which spawns the detached `doReconnect`),
stop, start again with a failing attempt (arming the retry timer), and
only then let the leaked reconnect thread run. -/
def leakTrace : List Event :=
  [Event.start .success (fun _ => true),
   Event.readErr false,
   Event.stop,
   Event.start .resolveFail (fun _ => true),
   Event.runReconnect .success (fun _ => true)]

/-! ### Lemmas about the drain loop -/

/-- The drain loop never reorders: the messages it wrote followed by the
remaining queue form exactly the original queue. -/
theorem drainGo_append (wo : Nat → Bool) :
    ∀ (i : Nat) (ms : List String),
      (drainGo wo i ms).1 ++ (drainGo wo i ms).2.1 = ms
  | _, [] => rfl
  | i, m :: rest => by
    unfold drainGo
    split
    · dsimp only
      rw [List.cons_append, drainGo_append wo (i + 1) rest]
    · rfl

/-- With an always-succeeding write oracle the drain loop writes the whole
queue and reports no failure. -/
theorem drainGo_allTrue : ∀ (i : Nat) (ms : List String),
    drainGo (fun _ => true) i ms = (ms, [], false)
  | _, [] => rfl
  | i, m :: rest => by
    unfold drainGo
    simp [drainGo_allTrue (i + 1) rest]

/-- Oracle bookkeeping of the drain loop: every write it popped succeeded,
it reports a failure exactly when messages remain, and in that case the
write of the head of the remainder is the one that failed. -/
theorem drainGo_oracle (wo : Nat → Bool) :
    ∀ (i : Nat) (ms : List String),
      (∀ j, j < (drainGo wo i ms).1.length → wo (i + j) = true) ∧
      ((drainGo wo i ms).2.2 = true ↔ (drainGo wo i ms).2.1 ≠ []) ∧
      ((drainGo wo i ms).2.2 = true → wo (i + (drainGo wo i ms).1.length) = false)
  | _, [] => by simp [drainGo]
  | i, m :: rest => by
    have ih := drainGo_oracle wo (i + 1) rest
    unfold drainGo
    split
    · dsimp only
      refine ⟨?_, ih.2.1, ?_⟩
      · intro j hj
        match j with
        | 0 => simpa using ‹wo i = true›
        | j' + 1 =>
          have h1 := ih.1 j' (by simpa using Nat.lt_of_succ_lt_succ hj)
          have harith : i + (j' + 1) = i + 1 + j' := by omega
          rw [harith]
          exact h1
      · intro hf
        have h2 := ih.2.2 hf
        have harith : i + (m :: (drainGo wo (i + 1) rest).1).length =
            i + 1 + (drainGo wo (i + 1) rest).1.length := by
          simp only [List.length_cons]
          omega
        rw [harith]
        exact h2
    · refine ⟨fun j hj => absurd hj (by simp), by simp, fun _ => ?_⟩
      simpa using ‹¬wo i = true›

/-! ### Field bookkeeping of the individual operations -/

@[simp]
theorem trySend_shouldBeActive (wo : Nat → Bool) (s : ClientState) :
    (trySendMessageQueue wo s).shouldBeActive = s.shouldBeActive := by
  unfold trySendMessageQueue
  split
  · rfl
  · dsimp only
    split <;> rfl

@[simp]
theorem trySend_ws (wo : Nat → Bool) (s : ClientState) :
    (trySendMessageQueue wo s).ws = s.ws := by
  unfold trySendMessageQueue
  split
  · rfl
  · dsimp only
    split <;> rfl

@[simp]
theorem trySend_worker (wo : Nat → Bool) (s : ClientState) :
    (trySendMessageQueue wo s).worker = s.worker := by
  unfold trySendMessageQueue
  split
  · rfl
  · dsimp only
    split <;> rfl

@[simp]
theorem trySend_startDelay (wo : Nat → Bool) (s : ClientState) :
    (trySendMessageQueue wo s).startDelayDeadline = s.startDelayDeadline := by
  unfold trySendMessageQueue
  split
  · rfl
  · dsimp only
    split <;> rfl

@[simp]
theorem trySend_readArmed (wo : Nat → Bool) (s : ClientState) :
    (trySendMessageQueue wo s).readArmed = s.readArmed := by
  unfold trySendMessageQueue
  split
  · rfl
  · dsimp only
    split <;> rfl

@[simp]
theorem trySend_pending (wo : Nat → Bool) (s : ClientState) :
    (trySendMessageQueue wo s).pendingReconnects = s.pendingReconnects := by
  unfold trySendMessageQueue
  split
  · rfl
  · dsimp only
    split <;> rfl

@[simp]
theorem trySend_now (wo : Nat → Bool) (s : ClientState) :
    (trySendMessageQueue wo s).now = s.now := by
  unfold trySendMessageQueue
  split
  · rfl
  · dsimp only
    split <;> rfl

@[simp]
theorem trySend_attempts (wo : Nat → Bool) (s : ClientState) :
    (trySendMessageQueue wo s).attempts = s.attempts := by
  unfold trySendMessageQueue
  split
  · rfl
  · dsimp only
    split <;> rfl

@[simp]
theorem trySend_delivered (wo : Nat → Bool) (s : ClientState) :
    (trySendMessageQueue wo s).delivered = s.delivered := by
  unfold trySendMessageQueue
  split
  · rfl
  · dsimp only
    split <;> rfl

@[simp]
theorem wsOpen_trySend (wo : Nat → Bool) (s : ClientState) :
    wsOpen (trySendMessageQueue wo s) = wsOpen s := by
  unfold wsOpen
  rw [trySend_ws]

/-- Everything `internalStop` does to the state, in one statement. -/
theorem internalStop_spec (s : ClientState) :
    (internalStop s).worker = 0 ∧
    (internalStop s).startDelayDeadline = none ∧
    (internalStop s).msgQueueDeadline = none ∧
    wsOpen (internalStop s) = false ∧
    (internalStop s).shouldBeActive = s.shouldBeActive ∧
    (internalStop s).messages = s.messages ∧
    (internalStop s).written = s.written ∧
    (internalStop s).delivered = s.delivered ∧
    (internalStop s).now = s.now ∧
    (internalStop s).attempts = s.attempts ∧
    (internalStop s).pendingReconnects = s.pendingReconnects ∧
    ((internalStop s).readArmed = true → s.readArmed = true ∧ wsOpen s = false) := by
  unfold internalStop wsOpen
  dsimp only
  split <;> split <;> simp_all

/-- Fields `doConnectionAttempt` treats uniformly in all four outcomes. -/
theorem attempt_spec (co : ConnOutcome) (wo : Nat → Bool) (s : ClientState) :
    (doConnectionAttempt co wo s).2.shouldBeActive = s.shouldBeActive ∧
    (doConnectionAttempt co wo s).2.worker = s.worker ∧
    (doConnectionAttempt co wo s).2.startDelayDeadline = s.startDelayDeadline ∧
    (doConnectionAttempt co wo s).2.now = s.now ∧
    (doConnectionAttempt co wo s).2.pendingReconnects = s.pendingReconnects ∧
    (doConnectionAttempt co wo s).2.attempts = s.attempts + 1 := by
  cases co <;> simp [doConnectionAttempt]

/-- A drain invocation on an inactive client is the identity. -/
theorem trySend_id_of_inactive (wo : Nat → Bool) (s : ClientState)
    (h : s.shouldBeActive = false) : trySendMessageQueue wo s = s := by
  unfold trySendMessageQueue
  simp [h]

/-- A drain invocation without an open handle is the identity. -/
theorem trySend_id_of_closed (wo : Nat → Bool) (s : ClientState)
    (h : wsOpen s = false) : trySendMessageQueue wo s = s := by
  unfold trySendMessageQueue
  simp [h]

/-- The direct (non-queued) `sendMessage` path never changes the state. -/
theorem sendMessage_direct_state (msg : String) (wo : Nat → Bool) (s : ClientState) :
    (sendMessage msg false wo s).2 = s := by
  unfold sendMessage
  simp only [Bool.false_eq_true, if_false]
  match s.ws with
  | none => rfl
  | some b => dsimp only; split <;> rfl

/-! ### The inductive invariant of reachable states -/

theorem readArmed_false_of (s : ClientState)
    (h4 : s.readArmed = true → wsOpen s = true) (ho : wsOpen s = false) :
    s.readArmed = false := by
  cases hra : s.readArmed
  · rfl
  · rw [h4 hra] at ho
    exact Bool.noConfusion ho

theorem internalStop_readArmed_false (s : ClientState)
    (h4 : s.readArmed = true → wsOpen s = true) :
    (internalStop s).readArmed = false := by
  obtain ⟨_, _, _, _, _, _, _, _, _, _, _, r0⟩ := internalStop_spec s
  cases hra : (internalStop s).readArmed
  · rfl
  · obtain ⟨hr', ho'⟩ := r0 hra
    rw [h4 hr'] at ho'
    exact Bool.noConfusion ho'

/-- An attempt followed by `scheduleDelayedStart` on failure (the common
tail of `internalStart` and `handler_startDelayTimer`) re-establishes the
invariant, starting from an active, handle-less, read-less state with one
worker and no armed start-delay timer. -/
theorem attemptRetry_inv (co : ConnOutcome) (wo : Nat → Bool) (s : ClientState)
    (ha : s.shouldBeActive = true) (hw : s.worker = 1) (ho : wsOpen s = false)
    (hr : s.readArmed = false) (hd : s.startDelayDeadline = none) :
    Inv (if (doConnectionAttempt co wo s).1 then (doConnectionAttempt co wo s).2
         else scheduleDelayedStart (doConnectionAttempt co wo s).2) := by
  cases co <;>
    simp_all [doConnectionAttempt, scheduleDelayedStart, Inv, wsOpen]

theorem internalStart_inv (co : ConnOutcome) (wo : Nat → Bool) (s : ClientState)
    (ha : s.shouldBeActive = true) (hw : s.worker = 0) (ho : wsOpen s = false)
    (hr : s.readArmed = false) (hd : s.startDelayDeadline = none) :
    Inv (internalStart co wo s) := by
  unfold internalStart
  dsimp only
  rw [if_pos hw]
  exact attemptRetry_inv co wo { s with worker := 1 } ha rfl ho hr hd

theorem inv_start (co : ConnOutcome) (wo : Nat → Bool) (s : ClientState)
    (h : Inv s) : Inv (start co wo s) := by
  unfold start
  split
  · exact h
  · rename_i hna
    have hfa : s.shouldBeActive = false := by
      cases hb : s.shouldBeActive
      · rfl
      · exact absurd hb hna
    obtain ⟨hw, hd, _, ho⟩ := h.1 hfa
    have hr : s.readArmed = false := readArmed_false_of s h.2.2.2 ho
    exact internalStart_inv co wo _ rfl hw ho hr hd

theorem inv_stop (s : ClientState) (h : Inv s) : Inv (stop s) := by
  unfold stop
  split
  · exact h
  · obtain ⟨w0, d0, m0, o0, a0, _, _, _, _, _, _, _⟩ :=
      internalStop_spec { s with shouldBeActive := false }
    have hra : (internalStop { s with shouldBeActive := false }).readArmed = false :=
      internalStop_readArmed_false _ h.2.2.2
    refine ⟨fun _ => ⟨w0, d0, m0, o0⟩, fun hc => ?_, fun hc => ?_, fun hc => ?_⟩
    · rw [a0] at hc
      exact Bool.noConfusion hc
    · rw [a0] at hc
      exact Bool.noConfusion hc
    · rw [hra] at hc
      exact Bool.noConfusion hc

theorem inv_trySend (wo : Nat → Bool) (s : ClientState) (h : Inv s) :
    Inv (trySendMessageQueue wo s) := by
  cases hA : s.shouldBeActive
  · rw [trySend_id_of_inactive wo s hA]
    exact h
  · refine ⟨fun hc => ?_, fun _ => ?_, fun _ => ?_, fun hc => ?_⟩
    · rw [trySend_shouldBeActive, hA] at hc
      exact Bool.noConfusion hc
    · rw [trySend_worker]
      exact h.2.1 hA
    · rw [wsOpen_trySend, trySend_startDelay]
      exact h.2.2.1 hA
    · rw [wsOpen_trySend]
      rw [trySend_readArmed] at hc
      exact h.2.2.2 hc

theorem inv_doReconnect (co : ConnOutcome) (wo : Nat → Bool) (s : ClientState)
    (h : Inv s) : Inv (doReconnect co wo s) := by
  unfold doReconnect
  split
  · exact h
  · rename_i hna
    have ha : s.shouldBeActive = true := by
      cases hb : s.shouldBeActive
      · rw [hb] at hna
        simp at hna
      · rfl
    obtain ⟨w0, d0, _, o0, a0, _, _, _, _, _, _, _⟩ := internalStop_spec s
    exact internalStart_inv co wo _ (by rw [a0]; exact ha) w0 o0
      (internalStop_readArmed_false s h.2.2.2) d0

theorem inv_step (s : ClientState) (e : Event) (h : Inv s) : Inv (step s e) := by
  cases e with
  | start co wo => exact inv_start co wo s h
  | stop => exact inv_stop s h
  | send msg q wo =>
    cases q
    · show Inv (sendMessage msg false wo s).2
      rw [sendMessage_direct_state]
      exact h
    · exact inv_trySend wo { s with messages := s.messages ++ [msg] } h
  | fireStartTimer co wo =>
    rcases hD : s.startDelayDeadline with _ | d
    · simp only [step, hD]
      exact h
    · simp only [step, hD]
      split
      · unfold handler_startDelayTimer
        have ha : s.shouldBeActive = true := by
          cases hb : s.shouldBeActive
          · rw [(h.1 hb).2.1] at hD
            exact Option.noConfusion hD
          · rfl
        rw [if_neg (by simp [ha])]
        dsimp only
        have ho : wsOpen s = false := by
          rcases h.2.2.1 ha with ⟨_, hdn⟩ | ⟨hof, _⟩
          · rw [hD] at hdn
            exact Option.noConfusion hdn
          · exact hof
        exact attemptRetry_inv co wo _ ha (h.2.1 ha) ho
          (readArmed_false_of s h.2.2.2 ho) rfl
      · exact h
  | fireMsgTimer wo =>
    rcases hD : s.msgQueueDeadline with _ | d
    · simp only [step, hD]
      exact h
    · simp only [step, hD]
      split
      · unfold handle_timerMessageQueue
        refine inv_trySend wo _ ⟨fun hna => ?_, h.2.1, h.2.2.1, h.2.2.2⟩
        obtain ⟨w0, d0, _, o0⟩ := h.1 hna
        exact ⟨w0, d0, rfl, o0⟩
      · exact h
  | readOk payload =>
    simp only [step]
    split
    · exact ⟨h.1, h.2.1, h.2.2.1, h.2.2.2⟩
    · exact h
  | readErr aborted =>
    simp only [step]
    split
    · split
      · exact ⟨h.1, h.2.1, h.2.2.1, fun hc => Bool.noConfusion hc⟩
      · exact ⟨h.1, h.2.1, h.2.2.1, fun hc => Bool.noConfusion hc⟩
    · exact h
  | runReconnect co wo =>
    simp only [step]
    split
    · exact inv_doReconnect co wo _ ⟨h.1, h.2.1, h.2.2.1, h.2.2.2⟩
    · exact h
  | tick =>
    exact ⟨h.1, h.2.1, h.2.2.1, h.2.2.2⟩

theorem inv_foldl : ∀ (evs : List Event) (s : ClientState), Inv s → Inv (evs.foldl step s)
  | [], _, h => h
  | e :: rest, s, h => inv_foldl rest (step s e) (inv_step s e h)

theorem inv_init : Inv initState := by
  refine ⟨fun _ => ⟨rfl, rfl, rfl, rfl⟩, fun hc => ?_, fun hc => ?_, fun hc => ?_⟩
  · exact Bool.noConfusion hc
  · exact Bool.noConfusion hc
  · exact Bool.noConfusion hc

/-- Every reachable state of the client satisfies the invariant. -/
theorem inv_runEvents (evs : List Event) : Inv (runEvents evs) :=
  inv_foldl evs initState inv_init

/-! ### FIFO bookkeeping of the outbound queue -/

@[simp]
theorem internalStop_worker (s : ClientState) : (internalStop s).worker = 0 :=
  (internalStop_spec s).1

@[simp]
theorem internalStop_startDelay (s : ClientState) :
    (internalStop s).startDelayDeadline = none :=
  (internalStop_spec s).2.1

@[simp]
theorem internalStop_msgQueue (s : ClientState) :
    (internalStop s).msgQueueDeadline = none :=
  (internalStop_spec s).2.2.1

@[simp]
theorem internalStop_wsOpen (s : ClientState) : wsOpen (internalStop s) = false :=
  (internalStop_spec s).2.2.2.1

@[simp]
theorem internalStop_shouldBeActive (s : ClientState) :
    (internalStop s).shouldBeActive = s.shouldBeActive :=
  (internalStop_spec s).2.2.2.2.1

@[simp]
theorem internalStop_messages (s : ClientState) :
    (internalStop s).messages = s.messages :=
  (internalStop_spec s).2.2.2.2.2.1

@[simp]
theorem internalStop_written (s : ClientState) :
    (internalStop s).written = s.written :=
  (internalStop_spec s).2.2.2.2.2.2.1

@[simp]
theorem internalStop_delivered (s : ClientState) :
    (internalStop s).delivered = s.delivered :=
  (internalStop_spec s).2.2.2.2.2.2.2.1

@[simp]
theorem internalStop_now (s : ClientState) : (internalStop s).now = s.now :=
  (internalStop_spec s).2.2.2.2.2.2.2.2.1

@[simp]
theorem internalStop_attempts (s : ClientState) :
    (internalStop s).attempts = s.attempts :=
  (internalStop_spec s).2.2.2.2.2.2.2.2.2.1

@[simp]
theorem internalStop_pending (s : ClientState) :
    (internalStop s).pendingReconnects = s.pendingReconnects :=
  (internalStop_spec s).2.2.2.2.2.2.2.2.2.2.1

/-- The queue messages sent (hence written) during one drain invocation,
appended to the previously written ones, together with the remaining queue,
are exactly the previously written messages followed by the previous
queue: the drain neither reorders, drops nor duplicates. -/
theorem trySend_wm (wo : Nat → Bool) (s : ClientState) :
    (trySendMessageQueue wo s).written ++ (trySendMessageQueue wo s).messages =
      s.written ++ s.messages := by
  unfold trySendMessageQueue
  split
  · rfl
  · dsimp only
    split <;> simp [List.append_assoc, drainGo_append]

theorem attempt_wm (co : ConnOutcome) (wo : Nat → Bool) (s : ClientState) :
    (doConnectionAttempt co wo s).2.written ++ (doConnectionAttempt co wo s).2.messages =
      s.written ++ s.messages := by
  cases co <;> simp [doConnectionAttempt, trySend_wm]

theorem internalStart_wm (co : ConnOutcome) (wo : Nat → Bool) (s : ClientState) :
    (internalStart co wo s).written ++ (internalStart co wo s).messages =
      s.written ++ s.messages := by
  unfold internalStart
  dsimp only
  split <;> split <;> simp [scheduleDelayedStart, attempt_wm]

theorem handlerStart_wm (co : ConnOutcome) (wo : Nat → Bool) (s : ClientState) :
    (handler_startDelayTimer co wo s).written ++ (handler_startDelayTimer co wo s).messages =
      s.written ++ s.messages := by
  unfold handler_startDelayTimer
  dsimp only
  split
  · rfl
  · split <;> simp [scheduleDelayedStart, attempt_wm]

theorem doReconnect_wm (co : ConnOutcome) (wo : Nat → Bool) (s : ClientState) :
    (doReconnect co wo s).written ++ (doReconnect co wo s).messages =
      s.written ++ s.messages := by
  unfold doReconnect
  split
  · rfl
  · rw [internalStart_wm]
    simp

theorem step_wm (s : ClientState) (e : Event) :
    (step s e).written ++ (step s e).messages = s.written ++ s.messages ++ sentOf e := by
  cases e with
  | start co wo =>
    show (start co wo s).written ++ (start co wo s).messages = _
    unfold start
    split
    · simp [sentOf]
    · rw [internalStart_wm]
      simp [sentOf]
  | stop =>
    show (stop s).written ++ (stop s).messages = _
    unfold stop
    split
    · simp [sentOf]
    · simp [sentOf]
  | send msg q wo =>
    cases q
    · show (sendMessage msg false wo s).2.written ++ (sendMessage msg false wo s).2.messages = _
      rw [sendMessage_direct_state]
      simp [sentOf]
    · show (sendMessage msg true wo s).2.written ++ (sendMessage msg true wo s).2.messages = _
      have hq : (sendMessage msg true wo s).2 =
          trySendMessageQueue wo { s with messages := s.messages ++ [msg] } := rfl
      rw [hq, trySend_wm]
      simp [sentOf, List.append_assoc]
  | fireStartTimer co wo =>
    rcases hD : s.startDelayDeadline with _ | d
    · simp [step, hD, sentOf]
    · simp only [step, hD]
      split
      · rw [handlerStart_wm]
        simp [sentOf]
      · simp [sentOf]
  | fireMsgTimer wo =>
    rcases hD : s.msgQueueDeadline with _ | d
    · simp [step, hD, sentOf]
    · simp only [step, hD]
      split
      · show (handle_timerMessageQueue wo { s with msgQueueDeadline := none }).written ++
            (handle_timerMessageQueue wo { s with msgQueueDeadline := none }).messages = _
        unfold handle_timerMessageQueue
        rw [trySend_wm]
        simp [sentOf]
      · simp [sentOf]
  | readOk payload =>
    simp only [step]
    split <;> simp [sentOf]
  | readErr aborted =>
    simp only [step]
    split
    · split <;> simp [sentOf]
    · simp [sentOf]
  | runReconnect co wo =>
    simp only [step]
    split
    · rw [doReconnect_wm]
      simp [sentOf]
    · simp [sentOf]
  | tick => simp [step, sentOf]

theorem wm_foldl : ∀ (evs : List Event) (s : ClientState),
    (evs.foldl step s).written ++ (evs.foldl step s).messages =
      s.written ++ s.messages ++ queuedMsgs evs
  | [], s => by simp [queuedMsgs]
  | e :: rest, s => by
    have ih := wm_foldl rest (step s e)
    simp only [List.foldl_cons] at ih ⊢
    rw [ih, step_wm, queuedMsgs]
    simp [List.append_assoc]

/-- Every event appends to `written`; nothing is ever removed from it. -/
theorem trySend_written_mono (wo : Nat → Bool) (s : ClientState) :
    ∃ w, (trySendMessageQueue wo s).written = s.written ++ w := by
  unfold trySendMessageQueue
  split
  · exact ⟨[], by simp⟩
  · dsimp only
    split
    · exact ⟨_, rfl⟩
    · exact ⟨_, rfl⟩

theorem attempt_written_mono (co : ConnOutcome) (wo : Nat → Bool) (s : ClientState) :
    ∃ w, (doConnectionAttempt co wo s).2.written = s.written ++ w := by
  cases co with
  | success =>
    obtain ⟨w, hw⟩ := trySend_written_mono wo
      { s with attempts := s.attempts + 1, ws := some true, readArmed := true }
    exact ⟨w, by simpa [doConnectionAttempt] using hw⟩
  | resolveFail => exact ⟨[], by simp [doConnectionAttempt]⟩
  | connectFail => exact ⟨[], by simp [doConnectionAttempt]⟩
  | handshakeFail => exact ⟨[], by simp [doConnectionAttempt]⟩

theorem internalStart_written_mono (co : ConnOutcome) (wo : Nat → Bool) (s : ClientState) :
    ∃ w, (internalStart co wo s).written = s.written ++ w := by
  unfold internalStart
  dsimp only
  by_cases hW : s.worker = 0
  · rw [if_pos hW]
    obtain ⟨w, hw⟩ := attempt_written_mono co wo { s with worker := 1 }
    split
    · exact ⟨w, hw⟩
    · exact ⟨w, hw⟩
  · rw [if_neg hW]
    obtain ⟨w, hw⟩ := attempt_written_mono co wo s
    split
    · exact ⟨w, hw⟩
    · exact ⟨w, hw⟩

theorem handlerStart_written_mono (co : ConnOutcome) (wo : Nat → Bool) (s : ClientState) :
    ∃ w, (handler_startDelayTimer co wo s).written = s.written ++ w := by
  unfold handler_startDelayTimer
  dsimp only
  split
  · exact ⟨[], by simp⟩
  · obtain ⟨w, hw⟩ := attempt_written_mono co wo s
    split
    · exact ⟨w, hw⟩
    · exact ⟨w, hw⟩

theorem doReconnect_written_mono (co : ConnOutcome) (wo : Nat → Bool) (s : ClientState) :
    ∃ w, (doReconnect co wo s).written = s.written ++ w := by
  unfold doReconnect
  split
  · exact ⟨[], by simp⟩
  · obtain ⟨w, hw⟩ := internalStart_written_mono co wo (internalStop s)
    rw [internalStop_written] at hw
    exact ⟨w, hw⟩

theorem step_written_mono (s : ClientState) (e : Event) :
    ∃ w, (step s e).written = s.written ++ w := by
  cases e with
  | start co wo =>
    show ∃ w, (start co wo s).written = s.written ++ w
    unfold start
    split
    · exact ⟨[], by simp⟩
    · exact internalStart_written_mono co wo _
  | stop =>
    show ∃ w, (stop s).written = s.written ++ w
    unfold stop
    split
    · exact ⟨[], by simp⟩
    · exact ⟨[], by simp⟩
  | send msg q wo =>
    cases q
    · show ∃ w, (sendMessage msg false wo s).2.written = s.written ++ w
      rw [sendMessage_direct_state]
      exact ⟨[], by simp⟩
    · show ∃ w, (sendMessage msg true wo s).2.written = s.written ++ w
      have hq : (sendMessage msg true wo s).2 =
          trySendMessageQueue wo { s with messages := s.messages ++ [msg] } := rfl
      rw [hq]
      exact trySend_written_mono wo _
  | fireStartTimer co wo =>
    rcases hD : s.startDelayDeadline with _ | d
    · exact ⟨[], by simp [step, hD]⟩
    · simp only [step, hD]
      split
      · exact handlerStart_written_mono co wo _
      · exact ⟨[], by simp⟩
  | fireMsgTimer wo =>
    rcases hD : s.msgQueueDeadline with _ | d
    · exact ⟨[], by simp [step, hD]⟩
    · simp only [step, hD]
      split
      · exact trySend_written_mono wo _
      · exact ⟨[], by simp⟩
  | readOk payload =>
    simp only [step]
    split
    · exact ⟨[], by simp⟩
    · exact ⟨[], by simp⟩
  | readErr aborted =>
    simp only [step]
    split
    · split
      · exact ⟨[], by simp⟩
      · exact ⟨[], by simp⟩
    · exact ⟨[], by simp⟩
  | runReconnect co wo =>
    simp only [step]
    split
    · exact doReconnect_written_mono co wo _
    · exact ⟨[], by simp⟩
  | tick => exact ⟨[], by simp [step]⟩

theorem written_mono_foldl : ∀ (evs : List Event) (s : ClientState),
    ∃ w, (evs.foldl step s).written = s.written ++ w
  | [], s => ⟨[], by simp⟩
  | e :: rest, s => by
    obtain ⟨w1, h1⟩ := step_written_mono s e
    obtain ⟨w2, h2⟩ := written_mono_foldl rest (step s e)
    exact ⟨w1 ++ w2, by simp only [List.foldl_cons]; rw [h2, h1, List.append_assoc]⟩

/-! ### Helper lemmas for the claim theorems -/

theorem runEvents_append (evs1 evs2 : List Event) :
    runEvents (evs1 ++ evs2) = evs2.foldl step (runEvents evs1) := by
  simp [runEvents, List.foldl_append]

theorem runEvents_snoc (evs : List Event) (e : Event) :
    runEvents (evs ++ [e]) = step (runEvents evs) e := by
  rw [runEvents_append]
  rfl

/-- A successful attempt: the handle comes up open, the read is armed, and
the queue drain runs. -/
theorem attempt_success_eq (wo : Nat → Bool) (s : ClientState) :
    doConnectionAttempt .success wo s =
      (true, trySendMessageQueue wo
        { s with attempts := s.attempts + 1, ws := some true, readArmed := true }) :=
  rfl

/-- A drain on an active client with an open handle and an
always-succeeding write oracle writes the entire queue. -/
theorem trySend_allTrue (s : ClientState) (ha : s.shouldBeActive = true)
    (ho : wsOpen s = true) :
    trySendMessageQueue (fun _ => true) s =
      { s with messages := [], written := s.written ++ s.messages } := by
  unfold trySendMessageQueue
  rw [if_neg (by simp [ha, ho])]
  dsimp only
  rw [drainGo_allTrue]
  simp

theorem stop_messages (s : ClientState) : (stop s).messages = s.messages := by
  unfold stop
  split
  · rfl
  · simp

theorem stop_written (s : ClientState) : (stop s).written = s.written := by
  unfold stop
  split
  · rfl
  · simp

/-- After `stop` the client is quiescent: inactive, no worker, no armed
timer, no open handle. -/
theorem stop_state (s : ClientState) (h : Inv s) :
    (stop s).shouldBeActive = false ∧ (stop s).worker = 0 ∧
    (stop s).startDelayDeadline = none ∧ (stop s).msgQueueDeadline = none ∧
    wsOpen (stop s) = false := by
  unfold stop
  split
  · rename_i hna
    have hfa : s.shouldBeActive = false := by simpa using hna
    obtain ⟨w0, d0, m0, o0⟩ := h.1 hfa
    exact ⟨hfa, w0, d0, m0, o0⟩
  · simp

theorem internalStart_shouldBeActive (co : ConnOutcome) (wo : Nat → Bool)
    (s : ClientState) : (internalStart co wo s).shouldBeActive = s.shouldBeActive := by
  unfold internalStart
  dsimp only
  by_cases hW : s.worker = 0
  · rw [if_pos hW]
    split
    · exact (attempt_spec co wo _).1
    · exact (attempt_spec co wo _).1
  · rw [if_neg hW]
    split
    · exact (attempt_spec co wo _).1
    · exact (attempt_spec co wo _).1

/-- Every `start` call leaves the client active. -/
theorem start_active (co : ConnOutcome) (wo : Nat → Bool) (s : ClientState) :
    (start co wo s).shouldBeActive = true := by
  unfold start
  split
  · rename_i hb
    exact hb
  · rw [internalStart_shouldBeActive]

/-- A `start` on an inactive, worker-less client with a successful
connection attempt comes up active with one worker and an open handle. -/
theorem start_success_state (wo : Nat → Bool) (s : ClientState)
    (h : s.shouldBeActive = false) (hw : s.worker = 0) :
    (start .success wo s).shouldBeActive = true ∧
    (start .success wo s).worker = 1 ∧
    wsOpen (start .success wo s) = true := by
  unfold start
  rw [if_neg (by simp [h])]
  unfold internalStart
  rw [if_pos (show ({ s with shouldBeActive := true } : ClientState).worker = 0 from hw)]
  simp only [attempt_success_eq]
  rw [if_pos trivial]
  refine ⟨?_, ?_, ?_⟩
  · rw [trySend_shouldBeActive]
  · rw [trySend_worker]
  · rw [wsOpen_trySend]
    rfl

/-- A `start` on an inactive, worker-less client with a successful attempt
and an always-succeeding write oracle drains the whole queue. -/
theorem start_success_drain (s : ClientState)
    (h : s.shouldBeActive = false) (hw : s.worker = 0) :
    (start .success (fun _ => true) s).messages = [] ∧
    (start .success (fun _ => true) s).written = s.written ++ s.messages := by
  unfold start
  rw [if_neg (by simp [h])]
  unfold internalStart
  rw [if_pos (show ({ s with shouldBeActive := true } : ClientState).worker = 0 from hw)]
  simp only [attempt_success_eq]
  rw [if_pos trivial]
  rw [trySend_allTrue]
  · exact ⟨rfl, rfl⟩
  · rfl
  · rfl

/-! ### Claim theorems -/

/-- C1: queued messages are delivered strictly in FIFO order.  In every
reachable state, the messages written from the queue followed by the
messages still queued are exactly all payloads enqueued via
`sendMessage(m, true)`, in enqueue order — so the written ones are always
a prefix of the enqueue order and nothing is skipped ahead; and `written`
only ever grows at its tail, so the write order over time is that same
prefix order.  In particular, messages enqueued before a connection exists
go out in enqueue order once the first connection opens. -/
theorem c1_queue_fifo (evs evs2 : List Event) :
    (runEvents evs).written ++ (runEvents evs).messages = queuedMsgs evs ∧
    ∃ w, (runEvents (evs ++ evs2)).written = (runEvents evs).written ++ w := by
  constructor
  · have h := wm_foldl evs initState
    simpa [runEvents, initState] using h
  · have h := written_mono_foldl evs2 (runEvents evs)
    rw [runEvents_append]
    exact h

/-- C2 counterexample: the claim quantifies over every sequence of
start()/stop() calls, but after a sequence whose last call is `start()`
a worker thread exists, and when the attempt failed the start-delay timer
is armed — here after the single call `start()` with a failing resolve. -/
theorem c2_counterexample :
    (runEvents [Event.start .resolveFail (fun _ => true)]).worker = 1 ∧
    (runEvents [Event.start .resolveFail (fun _ => true)]).startDelayDeadline =
      some 10 := by
  exact ⟨rfl, rfl⟩

/-- C2 (amended): after a sequence of start()/stop() calls whose last call
is stop(), no worker thread handle exists, neither the start-delay timer
nor the queue-retry timer is armed, no handle is open and the client is
inactive; and a future `start()` works: it leaves the client active with
one worker thread and an open handle. -/
theorem c2_stop_quiescent (evs : List Event) (wo : Nat → Bool) :
    (runEvents (evs ++ [Event.stop])).shouldBeActive = false ∧
    (runEvents (evs ++ [Event.stop])).worker = 0 ∧
    (runEvents (evs ++ [Event.stop])).startDelayDeadline = none ∧
    (runEvents (evs ++ [Event.stop])).msgQueueDeadline = none ∧
    wsOpen (runEvents (evs ++ [Event.stop])) = false ∧
    (runEvents (evs ++ [Event.stop, Event.start .success wo])).shouldBeActive = true ∧
    (runEvents (evs ++ [Event.stop, Event.start .success wo])).worker = 1 ∧
    wsOpen (runEvents (evs ++ [Event.stop, Event.start .success wo])) = true := by
  have hstop : runEvents (evs ++ [Event.stop]) = stop (runEvents evs) :=
    runEvents_snoc evs Event.stop
  obtain ⟨ha, hw, hd, hm, ho⟩ := stop_state (runEvents evs) (inv_runEvents evs)
  have hstart : runEvents (evs ++ [Event.stop, Event.start .success wo]) =
      start .success wo (stop (runEvents evs)) := by
    have : evs ++ [Event.stop, Event.start .success wo] =
        (evs ++ [Event.stop]) ++ [Event.start .success wo] := by simp
    rw [this, runEvents_snoc, hstop]
    rfl
  obtain ⟨sa, sw, so⟩ := start_success_state wo (stop (runEvents evs)) ha hw
  rw [hstop, hstart]
  exact ⟨ha, hw, hd, hm, ho, sa, sw, so⟩

/-- C3 counterexample: a failed connection attempt does retain a partial
handle.  After `start()` whose resolve succeeds but whose connect fails,
the client is active with the start-delay timer pending, yet the handle
`ws` is engaged (the `ws.emplace(ioc)` of line 114 survives the failure) —
it is merely not open.  So the state has neither "no handle" nor "a live
handle": the claimed two-case disjunction fails as stated. -/
theorem c3_counterexample :
    (runEvents [Event.start .connectFail (fun _ => true)]).shouldBeActive = true ∧
    (runEvents [Event.start .connectFail (fun _ => true)]).ws = some false ∧
    wsOpen (runEvents [Event.start .connectFail (fun _ => true)]) = false ∧
    (runEvents [Event.start .connectFail (fun _ => true)]).startDelayDeadline =
      some 10 ∧
    ¬(((runEvents [Event.start .connectFail (fun _ => true)]).ws = none ∧
       (runEvents [Event.start .connectFail (fun _ => true)]).startDelayDeadline ≠ none) ∨
      wsOpen (runEvents [Event.start .connectFail (fun _ => true)]) = true) := by
  refine ⟨rfl, rfl, rfl, rfl, ?_⟩
  intro hc
  rcases hc with ⟨hn, _⟩ | ho
  · exact Option.noConfusion hn
  · exact Bool.noConfusion ho

/-- C3 (amended): a failed attempt retains no open handle (though it may
retain a partial, non-open one), and in every reachable state with
DesiredState=true exactly one of {no open handle and a pending
StartDelayTimer, an open handle and no pending StartDelayTimer} holds. -/
theorem c3_open_handle_dichotomy (evs : List Event)
    (h : (runEvents evs).shouldBeActive = true) :
    (wsOpen (runEvents evs) = true ∧ (runEvents evs).startDelayDeadline = none) ∨
    (wsOpen (runEvents evs) = false ∧ (runEvents evs).startDelayDeadline ≠ none) :=
  (inv_runEvents evs).2.2.1 h

theorem c3_witness :
    (runEvents [Event.start .success (fun _ => true)]).shouldBeActive = true ∧
    ((wsOpen (runEvents [Event.start .success (fun _ => true)]) = true ∧
      (runEvents [Event.start .success (fun _ => true)]).startDelayDeadline = none) ∨
     (wsOpen (runEvents [Event.start .success (fun _ => true)]) = false ∧
      (runEvents [Event.start .success (fun _ => true)]).startDelayDeadline ≠ none)) :=
  ⟨rfl, c3_open_handle_dichotomy [Event.start .success (fun _ => true)] rfl⟩

/-- C9: at most one worker thread ever exists; a `start()` while already
active is a no-op, so two consecutive `start()` calls without an
intervening `stop()` yield the same state as one — in particular exactly
one worker thread and no additional connection attempt. -/
theorem c9_single_worker (evs : List Event) (co co' : ConnOutcome)
    (wo wo' : Nat → Bool) :
    (runEvents evs).worker ≤ 1 ∧
    (runEvents (evs ++ [Event.start co wo])).worker = 1 ∧
    runEvents (evs ++ [Event.start co wo, Event.start co' wo']) =
      runEvents (evs ++ [Event.start co wo]) ∧
    (runEvents (evs ++ [Event.start co wo, Event.start co' wo'])).attempts =
      (runEvents (evs ++ [Event.start co wo])).attempts := by
  have hInv := inv_runEvents evs
  have hact : (runEvents (evs ++ [Event.start co wo])).shouldBeActive = true := by
    rw [runEvents_snoc]
    exact start_active co wo (runEvents evs)
  have hsecond : runEvents (evs ++ [Event.start co wo, Event.start co' wo']) =
      runEvents (evs ++ [Event.start co wo]) := by
    have hsplit : evs ++ [Event.start co wo, Event.start co' wo'] =
        (evs ++ [Event.start co wo]) ++ [Event.start co' wo'] := by simp
    rw [hsplit, runEvents_snoc]
    show start co' wo' (runEvents (evs ++ [Event.start co wo])) = _
    unfold start
    rw [if_pos hact]
  refine ⟨?_, ?_, hsecond, by rw [hsecond]⟩
  · cases hA : (runEvents evs).shouldBeActive
    · rw [(hInv.1 hA).1]
      decide
    · rw [hInv.2.1 hA]
  · exact (inv_runEvents (evs ++ [Event.start co wo])).2.1 hact

/-- C10: `stop()` leaves the pending message queue (and the record of
already-written messages) unchanged, across a full stop()/start() cycle and
not only an internal reconnect; and once a later connection opens (here:
the next `start()` succeeds and its writes succeed) the whole preserved
queue is delivered, in order, after the previously written messages. -/
theorem c10_stop_preserves_queue (evs : List Event) :
    (runEvents (evs ++ [Event.stop])).messages = (runEvents evs).messages ∧
    (runEvents (evs ++ [Event.stop])).written = (runEvents evs).written ∧
    (runEvents (evs ++ [Event.stop, Event.start .success (fun _ => true)])).messages
      = [] ∧
    (runEvents (evs ++ [Event.stop, Event.start .success (fun _ => true)])).written
      = (runEvents evs).written ++ (runEvents evs).messages := by
  have hstop : runEvents (evs ++ [Event.stop]) = stop (runEvents evs) :=
    runEvents_snoc evs Event.stop
  obtain ⟨ha, hw, _, _, _⟩ := stop_state (runEvents evs) (inv_runEvents evs)
  have hstart : runEvents (evs ++ [Event.stop, Event.start .success (fun _ => true)]) =
      start .success (fun _ => true) (stop (runEvents evs)) := by
    have hsplit : evs ++ [Event.stop, Event.start .success (fun _ => true)] =
        (evs ++ [Event.stop]) ++ [Event.start .success (fun _ => true)] := by simp
    rw [hsplit, runEvents_snoc, hstop]
    rfl
  obtain ⟨hm, hwr⟩ := start_success_drain (stop (runEvents evs)) ha hw
  rw [hstop, hstart, hm, hwr, stop_messages, stop_written]
  exact ⟨rfl, rfl, rfl, rfl⟩

/-- A drain invocation whose guard passes, written out in closed form. -/
theorem trySend_open_eq (wo : Nat → Bool) (s : ClientState)
    (ha : s.shouldBeActive = true) (ho : wsOpen s = true) :
    trySendMessageQueue wo s =
      (if (drainGo wo 0 s.messages).2.2 then
        { s with messages := (drainGo wo 0 s.messages).2.1,
                 written := s.written ++ (drainGo wo 0 s.messages).1,
                 msgQueueDeadline := some (s.now + 1) }
       else
        { s with messages := (drainGo wo 0 s.messages).2.1,
                 written := s.written ++ (drainGo wo 0 s.messages).1 }) := by
  unfold trySendMessageQueue
  rw [if_neg (by simp [ha, ho])]

/-- C4: drain behaviour.  Invoked (also on connect success and on every
`sendMessage(m, true)`, final two conjuncts) on an active client with an
open handle, the drain writes head messages in order while writes succeed:
the written messages are the successful prefix, appended to `written` in
order; the remainder stays queued, with the original queue split exactly
into the two; every write that popped a message succeeded; a failure is
reported iff messages remain, in which case the write of the head of the
remainder is the one that failed — it is not dropped — and the single-shot
queue-retry timer is armed one time unit ahead; with no failure the queue
drains completely and the timer field is untouched.  The timer handler
re-invokes exactly the drain. -/
theorem c4_drain_behaviour (wo : Nat → Bool) (s : ClientState) (m : String)
    (ha : s.shouldBeActive = true) (ho : wsOpen s = true) :
    (sendMessage m true wo s).2 =
      trySendMessageQueue wo { s with messages := s.messages ++ [m] } ∧
    handle_timerMessageQueue wo s = trySendMessageQueue wo s ∧
    (trySendMessageQueue wo s).written = s.written ++ (drainGo wo 0 s.messages).1 ∧
    (trySendMessageQueue wo s).messages = (drainGo wo 0 s.messages).2.1 ∧
    s.messages = (drainGo wo 0 s.messages).1 ++ (drainGo wo 0 s.messages).2.1 ∧
    (∀ j, j < (drainGo wo 0 s.messages).1.length → wo j = true) ∧
    ((drainGo wo 0 s.messages).2.2 = true ↔ (drainGo wo 0 s.messages).2.1 ≠ []) ∧
    ((drainGo wo 0 s.messages).2.2 = true →
      wo (drainGo wo 0 s.messages).1.length = false ∧
      (trySendMessageQueue wo s).msgQueueDeadline = some (s.now + 1)) ∧
    ((drainGo wo 0 s.messages).2.2 = false →
      (trySendMessageQueue wo s).messages = [] ∧
      (trySendMessageQueue wo s).msgQueueDeadline = s.msgQueueDeadline) := by
  have horc := drainGo_oracle wo 0 s.messages
  have happ := drainGo_append wo 0 s.messages
  have hfirst : ∀ j, j < (drainGo wo 0 s.messages).1.length → wo j = true := by
    intro j hj
    simpa using horc.1 j hj
  refine ⟨rfl, rfl, ?_⟩
  rw [trySend_open_eq wo s ha ho]
  by_cases hf : (drainGo wo 0 s.messages).2.2 = true
  · rw [if_pos hf]
    refine ⟨rfl, rfl, happ.symm, hfirst, horc.2.1, fun _ => ⟨?_, rfl⟩,
      fun hc => absurd hf (by simp [hc])⟩
    simpa using horc.2.2 hf
  · rw [if_neg hf]
    have hr : (drainGo wo 0 s.messages).2.1 = [] := by
      by_contra hne
      exact hf (horc.2.1.mpr hne)
    exact ⟨rfl, rfl, happ.symm, hfirst, horc.2.1, fun hc => absurd hc hf,
      fun _ => ⟨hr, rfl⟩⟩

theorem c4_witness :
    (trySendMessageQueue (fun i => decide (i < 1)) sampleDrainState).written = ["a"] ∧
    (trySendMessageQueue (fun i => decide (i < 1)) sampleDrainState).messages =
      ["b", "c"] ∧
    (trySendMessageQueue (fun i => decide (i < 1)) sampleDrainState).msgQueueDeadline =
      some 1 := by
  have h := c4_drain_behaviour (fun i => decide (i < 1)) sampleDrainState "z" rfl rfl
  exact ⟨h.2.2.1.trans rfl, h.2.2.2.1.trans rfl, (h.2.2.2.2.2.2.2.1 rfl).2.trans rfl⟩

/-- C5 counterexample: the liveness guard is not checked before every
individual write.  On a live state with two queued messages and succeeding
writes, the drain trace is one check followed by two consecutive writes:
the second write has no check before it. -/
theorem c5_counterexample :
    trySendTrace (fun _ => true) sampleTraceState =
      [DrainEv.check true, DrainEv.write "x" true, DrainEv.write "y" true] ∧
    everyWriteChecked (trySendTrace (fun _ => true) sampleTraceState) = false := by
  exact ⟨rfl, rfl⟩

/-- C5 (amended): connection liveness is checked once at the start of every
drain invocation — every drain trace begins with the single guard check —
and writes occur only in invocations whose guard passed; since the drain
holds the lock and the state cannot change under it, no write of the drain
loop is attempted on an absent or non-open connection. -/
theorem c5_liveness_checked_at_entry (wo : Nat → Bool) (s : ClientState) :
    (trySendTrace wo s).head? = some (DrainEv.check (liveGuard s)) ∧
    ((trySendTrace wo s).any isWrite = true → liveGuard s = true) := by
  constructor
  · rfl
  · intro hw
    by_cases hl : liveGuard s = true
    · exact hl
    · unfold trySendTrace at hw
      rw [if_neg hl] at hw
      simp [isWrite] at hw

theorem c5_witness :
    liveGuard sampleTraceState = true ∧
    (trySendTrace (fun _ => true) sampleTraceState).head? =
      some (DrainEv.check true) := by
  have h := c5_liveness_checked_at_entry (fun _ => true) sampleTraceState
  exact ⟨h.2 rfl, h.1.trans rfl⟩

/-- C6: the read-completion handler.  On success the full buffer payload is
handed to the callback sink, the buffer is cleared and exactly the one read
is re-armed; on `operation_aborted` the completion is ignored (no payload,
no reconnect, no re-arm); on any other error one detached reconnect is
dispatched and no read is re-armed. -/
theorem c6_read_handler (s : ReadState) :
    handler_onread .ok s =
      { s with delivered := s.delivered ++ [s.buf], buf := "", readArmed := true } ∧
    handler_onread .operationAborted s = { s with readArmed := false } ∧
    handler_onread .otherErr s =
      { s with readArmed := false,
               pendingReconnects := s.pendingReconnects + 1 } := by
  exact ⟨rfl, rfl, rfl⟩

/-- C8: `sendMessage(payload, false)` is effect-free on the state — in
particular the payload is never appended to the queue and the queue is left
unchanged — and it returns true exactly when a handle is present, open and
the single synchronous write succeeds (a missing handle or a throwing
write yields false). -/
theorem c8_direct_send (s : ClientState) (msg : String) (wo : Nat → Bool) :
    (sendMessage msg false wo s).2 = s ∧
    (sendMessage msg false wo s).2.messages = s.messages ∧
    (sendMessage msg false wo s).1 = (wsOpen s && wo 0) := by
  refine ⟨sendMessage_direct_state msg wo s, by rw [sendMessage_direct_state], ?_⟩
  unfold sendMessage
  rcases hws : s.ws with _ | b
  · simp [wsOpen, hws]
  · simp only [Bool.false_eq_true, if_false, hws]
    have hob : wsOpen s = b := by simp [wsOpen, hws]
    by_cases hb : (b && wo 0) = true
    · rw [if_pos hb, hob, hb]
    · rw [if_neg hb, hob]
      cases hbb : b <;> cases hw0 : wo 0 <;> simp_all

/-! ### Events that cannot disturb a state waiting out the retry timer -/

theorem countTicks_cons (e : Event) (rest : List Event) :
    countTicks (e :: rest) = countTicks rest + (if isTick e = true then 1 else 0) := by
  cases e <;> simp [countTicks, isTick]

theorem hasStop_cons (e : Event) (rest : List Event) (h : hasStop (e :: rest) = false) :
    isStop e = false ∧ hasStop rest = false := by
  unfold hasStop at h ⊢
  rw [List.any_cons] at h
  exact ⟨by cases hi : isStop e <;> simp_all, by cases hr : rest.any isStop <;> simp_all⟩

/-- While the start-delay timer is armed for a future deadline and no
detached reconnect is pending, any single event other than `stop` leaves
the waiting state intact and performs no connection attempt. -/
theorem quiet_step (d : Nat) (s : ClientState) (e : Event) (hq : Quiet d s)
    (hns : isStop e = false) (hnow : s.now < d) :
    Quiet d (step s e) ∧ (step s e).attempts = s.attempts ∧
    (step s e).now = s.now + (if isTick e = true then 1 else 0) := by
  obtain ⟨ha, hd, hp, hr, ho⟩ := hq
  cases e with
  | start co wo =>
    have hst : step s (.start co wo) = s := by
      show start co wo s = s
      unfold start
      rw [if_pos ha]
    rw [hst]
    exact ⟨⟨ha, hd, hp, hr, ho⟩, rfl, by simp [isTick]⟩
  | stop => simp [isStop] at hns
  | send msg q wo =>
    cases q
    · have hst : step s (.send msg false wo) = s := sendMessage_direct_state msg wo s
      rw [hst]
      exact ⟨⟨ha, hd, hp, hr, ho⟩, rfl, by simp [isTick]⟩
    · have hst : step s (.send msg true wo) =
          { s with messages := s.messages ++ [msg] } := by
        show (sendMessage msg true wo s).2 = _
        have hsm : (sendMessage msg true wo s).2 =
            trySendMessageQueue wo { s with messages := s.messages ++ [msg] } := rfl
        rw [hsm]
        exact trySend_id_of_closed wo _ ho
      rw [hst]
      exact ⟨⟨ha, hd, hp, hr, ho⟩, rfl, by simp [isTick]⟩
  | fireStartTimer co wo =>
    have hst : step s (.fireStartTimer co wo) = s := by
      simp only [step, hd]
      rw [if_neg (by omega)]
    rw [hst]
    exact ⟨⟨ha, hd, hp, hr, ho⟩, rfl, by simp [isTick]⟩
  | fireMsgTimer wo =>
    rcases hm : s.msgQueueDeadline with _ | dm
    · have hst : step s (.fireMsgTimer wo) = s := by simp [step, hm]
      rw [hst]
      exact ⟨⟨ha, hd, hp, hr, ho⟩, rfl, by simp [isTick]⟩
    · simp only [step, hm]
      split
      · rw [show handle_timerMessageQueue wo { s with msgQueueDeadline := none } =
            { s with msgQueueDeadline := none } from trySend_id_of_closed wo _ ho]
        exact ⟨⟨ha, hd, hp, hr, ho⟩, rfl, by simp [isTick]⟩
      · exact ⟨⟨ha, hd, hp, hr, ho⟩, rfl, by simp [isTick]⟩
  | readOk payload =>
    have hst : step s (.readOk payload) = s := by
      simp only [step]
      rw [if_neg (by simp [hr])]
    rw [hst]
    exact ⟨⟨ha, hd, hp, hr, ho⟩, rfl, by simp [isTick]⟩
  | readErr aborted =>
    have hst : step s (.readErr aborted) = s := by
      simp only [step]
      rw [if_neg (by simp [hr])]
    rw [hst]
    exact ⟨⟨ha, hd, hp, hr, ho⟩, rfl, by simp [isTick]⟩
  | runReconnect co wo =>
    have hst : step s (.runReconnect co wo) = s := by
      simp only [step]
      rw [if_neg (by simp [hp])]
    rw [hst]
    exact ⟨⟨ha, hd, hp, hr, ho⟩, rfl, by simp [isTick]⟩
  | tick =>
    exact ⟨⟨ha, hd, hp, hr, ho⟩, rfl, by simp [step, isTick]⟩

theorem quiet_run : ∀ (evs : List Event) (d : Nat) (s : ClientState), Quiet d s →
    hasStop evs = false → s.now + countTicks evs < d →
    (evs.foldl step s).attempts = s.attempts
  | [], _, _, _, _, _ => rfl
  | e :: rest, d, s, hq, hns, hnow => by
    obtain ⟨hne, hnr⟩ := hasStop_cons e rest hns
    have hct := countTicks_cons e rest
    have hnow1 : s.now < d := by omega
    obtain ⟨hq2, hatt, hnow2⟩ := quiet_step d s e hq hne hnow1
    have hrec := quiet_run rest d (step s e) hq2 hnr (by rw [hnow2]; omega)
    simp only [List.foldl_cons]
    rw [hrec, hatt]

/-- C7 counterexample: a new connection attempt can occur before the fixed
10-unit retry delay elapses, via a detached reconnect thread leaked by an
earlier read error.  In `leakTrace`, the fourth event is a `start()` whose
attempt fails while DesiredState is true (two attempts so far, the timer
armed for deadline 10, time still 0); the fifth event runs the leaked
`doReconnect` thread, which performs a third attempt at time 0 — before
the delay elapsed. -/
theorem c7_counterexample :
    (runEvents (leakTrace.take 4)).shouldBeActive = true ∧
    (runEvents (leakTrace.take 4)).attempts = 2 ∧
    (runEvents (leakTrace.take 4)).startDelayDeadline = some 10 ∧
    (runEvents (leakTrace.take 4)).now = 0 ∧
    (runEvents (leakTrace.take 4)).pendingReconnects = 1 ∧
    (runEvents leakTrace).attempts = 3 ∧
    (runEvents leakTrace).now = 0 := by
  exact ⟨rfl, rfl, rfl, rfl, rfl, rfl, rfl⟩

/-- C7 (amended): while the start-delay timer armed by a failed attempt is
pending and no detached reconnect dispatched by an earlier read error is
still pending, no new connection attempt occurs through any events that
contain no stop() and whose ticks do not reach the deadline; and after a
stop() the timer is unarmed, so a subsequent start-delay-timer firing
performs no attempt at all (in the source this is guarded by the handler
re-checking DesiredState). -/
theorem c7_retry_delay (evs1 evs2 : List Event) (d : Nat) (co : ConnOutcome)
    (wo : Nat → Bool)
    (hd : (runEvents evs1).startDelayDeadline = some d)
    (hp : (runEvents evs1).pendingReconnects = 0)
    (hns : hasStop evs2 = false)
    (hnow : (runEvents evs1).now + countTicks evs2 < d) :
    (runEvents (evs1 ++ evs2)).attempts = (runEvents evs1).attempts ∧
    (runEvents (evs1 ++ [Event.stop])).startDelayDeadline = none ∧
    (runEvents (evs1 ++ [Event.stop, Event.fireStartTimer co wo])).attempts =
      (runEvents (evs1 ++ [Event.stop])).attempts := by
  have hInv := inv_runEvents evs1
  have ha : (runEvents evs1).shouldBeActive = true := by
    cases hb : (runEvents evs1).shouldBeActive
    · rw [(hInv.1 hb).2.1] at hd
      exact Option.noConfusion hd
    · rfl
  have ho : wsOpen (runEvents evs1) = false := by
    rcases hInv.2.2.1 ha with ⟨_, hdn⟩ | ⟨hof, _⟩
    · rw [hd] at hdn
      exact Option.noConfusion hdn
    · exact hof
  have hr : (runEvents evs1).readArmed = false :=
    readArmed_false_of _ hInv.2.2.2 ho
  have hq : Quiet d (runEvents evs1) := ⟨ha, hd, hp, hr, ho⟩
  have hdn : (runEvents (evs1 ++ [Event.stop])).startDelayDeadline = none := by
    rw [runEvents_snoc]
    exact (stop_state (runEvents evs1) hInv).2.2.1
  refine ⟨?_, hdn, ?_⟩
  · rw [runEvents_append]
    exact quiet_run evs2 d (runEvents evs1) hq hns hnow
  · have hsplit : evs1 ++ [Event.stop, Event.fireStartTimer co wo] =
        (evs1 ++ [Event.stop]) ++ [Event.fireStartTimer co wo] := by simp
    rw [hsplit, runEvents_snoc]
    simp [step, hdn]

theorem c7_witness :
    (runEvents ([Event.start .resolveFail (fun _ => true)] ++
      [Event.tick, Event.send "m" true (fun _ => true),
       Event.fireStartTimer .success (fun _ => true)])).attempts =
      (runEvents [Event.start .resolveFail (fun _ => true)]).attempts ∧
    (runEvents ([Event.start .resolveFail (fun _ => true)] ++
      [Event.stop])).startDelayDeadline = none ∧
    (runEvents ([Event.start .resolveFail (fun _ => true)] ++
      [Event.stop, Event.fireStartTimer ConnOutcome.success (fun _ => true)])).attempts =
      (runEvents ([Event.start .resolveFail (fun _ => true)] ++
        [Event.stop])).attempts :=
  c7_retry_delay [Event.start .resolveFail (fun _ => true)]
    [Event.tick, Event.send "m" true (fun _ => true),
     Event.fireStartTimer .success (fun _ => true)]
    10 .success (fun _ => true) rfl rfl rfl (by decide)

end WSClient
